import Mathlib

/-!
Verification development for the `jif` terminal GIF viewer.

The Go source is shallowly embedded:
* machine integers (`int`) become `Int`; Go `/` and `%` (which truncate
  toward zero) become `Int.tdiv` and `Int.tmod`;
* `float64` arithmetic inside `calculateImageSize` is modelled as exact
  rational arithmetic (`ℚ`) with truncation toward zero for the `int(...)`
  conversions; on all inputs used in concrete theorems below the float
  computations are exact, so the model agrees with the source there;
* an RGBA pixel buffer (`image.RGBA`, zero initialised, hence fully
  transparent) becomes a total function `Int → Int → RGBA` together with a
  bounds rectangle; `draw.Draw` clips the affected region to the
  intersection of the destination rectangle with both image bounds,
  which the drawing operations below reproduce;
* a GIF sub-frame (`*image.Paletted`) carries binary alpha (a palette
  entry is either fully transparent or fully opaque), so its pixels are
  `Option RGBA` and `draw.Over` compositing either keeps the destination
  pixel (`none`) or replaces it (`some`);
* the external `lipgloss` styling and `resize.Resize` (Lanczos3) calls are
  the same library calls in both Go packages, so they appear here as a
  shared abstract glyph constructor and an abstract resize parameter;
* the bubbletea message handlers become pure functions
  `Model → ... → Model × Option Cmd`.
-/

namespace Jif

/-- `image.Rectangle`: half-open rectangle `[minX, maxX) × [minY, maxY)`. -/
structure Rect where
  minX : Int
  minY : Int
  maxX : Int
  maxY : Int
deriving DecidableEq

/-- `image.Point.In`: membership of a point in a rectangle. -/
def Rect.contains (r : Rect) (x y : Int) : Bool :=
  decide (r.minX ≤ x) && decide (x < r.maxX) && decide (r.minY ≤ y) && decide (y < r.maxY)

/-- `Rect.Dx()`. -/
def Rect.dx (r : Rect) : Int := r.maxX - r.minX

/-- `Rect.Dy()`. -/
def Rect.dy (r : Rect) : Int := r.maxY - r.minY

/-- An 8-bit RGBA pixel as stored in an `image.RGBA` buffer. -/
structure RGBA where
  r : Nat
  g : Nat
  b : Nat
  a : Nat
deriving DecidableEq

/-- The zero value of a pixel in a fresh `image.NewRGBA` buffer: fully transparent. -/
def transparentRGBA : RGBA := ⟨0, 0, 0, 0⟩

/-- A full-canvas pixel buffer (`image.RGBA` contents as a total function). -/
def Canvas := Int → Int → RGBA

/-- A freshly allocated buffer: all pixels transparent. -/
def blankCanvas : Canvas := fun _ _ => transparentRGBA

/-- One GIF sub-frame (`*image.Paletted`): bounds plus binary-alpha pixels
(`none` = transparent palette index, `some c` = opaque colour `c`). -/
structure SubFrame where
  bounds : Rect
  pix : Int → Int → Option RGBA

/-- `draw.Draw(dst, srcBounds, image.Uniform{color.Transparent}, Src)`:
clear `srcBounds ∩ dstBounds` to transparent, leave the rest untouched. -/
def clearRect (dstBounds srcBounds : Rect) (c : Canvas) : Canvas :=
  fun x y =>
    if srcBounds.contains x y && dstBounds.contains x y then transparentRGBA else c x y

/-- `draw.Draw(dst, dst.Bounds(), src, Src)` between two same-bounds RGBA
buffers: copy `src` over the destination rectangle. -/
def copyOnto (dstBounds : Rect) (src dst : Canvas) : Canvas :=
  fun x y => if dstBounds.contains x y then src x y else dst x y

/-- `draw.Draw(dst, dst.Bounds(), frame, Over)`: composite a paletted
sub-frame over the canvas. `draw` clips to `dstBounds ∩ frame.bounds`;
inside that region a transparent source pixel keeps the destination and
an opaque one replaces it. -/
def drawOver (dstBounds : Rect) (f : SubFrame) (c : Canvas) : Canvas :=
  fun x y =>
    if dstBounds.contains x y && f.bounds.contains x y then
      match f.pix x y with
      | some col => col
      | none => c x y
    else c x y

/-- `gif.DisposalNone`. -/
def disposalNone : Nat := 1

/-- `gif.DisposalBackground`. -/
def disposalBackground : Nat := 2

/-- `gif.DisposalPrevious`. -/
def disposalPrevious : Nat := 3

/-- The decoded `gif.GIF`: parallel lists of sub-frames, delays (hundredths
of a second) and disposal bytes. -/
structure GIFData where
  image : List SubFrame
  delay : List Int
  disposal : List Nat

/-- Default used for out-of-range frame access (never reached by guarded theorems). -/
def emptySubFrame : SubFrame := ⟨⟨0, 0, 0, 0⟩, fun _ _ => none⟩

/-- `g.Image[i]`. -/
def GIFData.frameAt (g : GIFData) (i : Nat) : SubFrame := g.image.getD i emptySubFrame

/-- `g.Disposal[i]`. -/
def GIFData.disposalAt (g : GIFData) (i : Nat) : Nat := g.disposal.getD i 0

/-- Accumulator of `getGifDimensions`: the four local variables, all
starting at zero in the source. -/
structure BBoxAcc where
  lowestX : Int
  lowestY : Int
  highestX : Int
  highestY : Int
deriving DecidableEq

/-- Body of the `getGifDimensions` loop (core `viewer.go`). -/
def dimStep (a : BBoxAcc) (f : SubFrame) : BBoxAcc :=
  { lowestX := if f.bounds.minX < a.lowestX then f.bounds.minX else a.lowestX
    lowestY := if f.bounds.minY < a.lowestY then f.bounds.minY else a.lowestY
    highestX := if f.bounds.maxX > a.highestX then f.bounds.maxX else a.highestX
    highestY := if f.bounds.maxY > a.highestY then f.bounds.maxY else a.highestY }

/-- `getGifDimensions` (core `viewer.go`): fold over all frame rectangles with
all four accumulators initialised to `0`. -/
def getGifDimensions (g : GIFData) : Int × Int :=
  let acc := g.image.foldl dimStep ⟨0, 0, 0, 0⟩
  (acc.highestX - acc.lowestX, acc.highestY - acc.lowestY)

/-- The canvas rectangle `image.Rect(0, 0, imgWidth, imgHeight)` allocated
by `ProcessGIF`. -/
def canvasRect (g : GIFData) : Rect :=
  ⟨0, 0, (getGifDimensions g).1, (getGifDimensions g).2⟩

/-- The two live buffers of the compositing loop. -/
structure CompState where
  current : Canvas
  previous : Canvas

/-- `processFrame` (core `viewer.go`): apply the previous frame's disposal to
`current`. `srcBounds` is the previous frame's rectangle. -/
def processFrame (cb : Rect) (s : CompState) (srcBounds : Rect) (d : Nat) : Canvas :=
  if d == disposalBackground then clearRect cb srcBounds s.current
  else if d == disposalPrevious then copyOnto cb s.previous s.current
  else s.current

/-- State of the `ProcessGIF` loop (core `viewer.go`) at the top of iteration
`i`, after the save-previous step and the disposal of frame `i-1` have been
applied but before frame `i` is composited: the "base" canvas for frame `i`.
Iteration order mirrors the source exactly: at iteration `i+1` the loop first
copies `current` into `previous` when `Disposal[i] == DisposalPrevious`, then
applies frame `i`'s disposal to `current`, then (in `postDraw`) composites
frame `i+1`. -/
def preDraw (cb : Rect) (g : GIFData) : Nat → CompState
  | 0 => ⟨blankCanvas, blankCanvas⟩
  | i + 1 =>
      let s := preDraw cb g i
      let cur := drawOver cb (g.frameAt i) s.current
      let prev := if g.disposalAt i == disposalPrevious then copyOnto cb cur s.previous else s.previous
      let cur2 := processFrame cb ⟨cur, prev⟩ (g.frameAt i).bounds (g.disposalAt i)
      ⟨cur2, prev⟩

/-- The canvas right after frame `i` is composited (`draw.Draw(current, ..., srcImg, Over)`). -/
def postDraw (cb : Rect) (g : GIFData) (i : Nat) : Canvas :=
  drawOver cb (g.frameAt i) (preDraw cb g i).current

/-! ### Half-block rasterizer -/

/-- A pixel as returned by `color.Color.RGBA()`: alpha-premultiplied 16-bit
channels (each below `65536`). -/
structure RGBA16 where
  r : Nat
  g : Nat
  b : Nat
  a : Nat
deriving DecidableEq

/-- `color.Transparent.RGBA()` = `(0, 0, 0, 0)`. -/
def transparent16 : RGBA16 := ⟨0, 0, 0, 0⟩

/-- `color.RGBA.RGBA()` widens each 8-bit channel `c` to `c * 0x101`. -/
def to16 (c : RGBA) : RGBA16 := ⟨c.r * 257, c.g * 257, c.b * 257, c.a * 257⟩

/-- An `image.Image` as consumed by the rasterizer: bounds plus `At`. -/
structure Img where
  bounds : Rect
  pixAt : Int → Int → RGBA16

/-- A hex colour `#rrggbb`: the three `uint8(c >> 8)` channel values. -/
structure Hex where
  r : Nat
  g : Nat
  b : Nat
deriving DecidableEq

/-- `fmt.Sprintf("#%02x%02x%02x", uint8(r>>8), uint8(g>>8), uint8(b>>8))`:
truncate each 16-bit channel to 8 bits (shift right by 8, then the `uint8`
conversion keeps the low 8 bits). -/
def hexOf (c : RGBA16) : Hex := ⟨(c.r >>> 8) % 256, (c.g >>> 8) % 256, (c.b >>> 8) % 256⟩

/-- One emitted terminal cell. The `lipgloss` style rendering is an external,
deterministic library shared by both Go packages, so the output text is
abstracted to the glyph chosen and the colours passed to the styles:
`blank` = the two spaces, `lower fg` = `▄▄` with foreground `fg`,
`upper fg` = `▀▀` with foreground `fg`,
`upperBg fg bg` = `▀▀` with foreground `fg` and background `bg`,
`newline` = the row-terminating `"\n"`. -/
inductive Glyph
  | blank
  | lower (fg : Hex)
  | upper (fg : Hex)
  | upperBg (fg bg : Hex)
  | newline
deriving DecidableEq

/-- `renderHalfBlockChar` (core `viewer.go`): the four-way branch on the two
alpha values. -/
def renderHalfBlockChar (topColor bottomColor : RGBA16) : Glyph :=
  if topColor.a == 0 && bottomColor.a == 0 then Glyph.blank
  else if topColor.a == 0 then Glyph.lower (hexOf bottomColor)
  else if bottomColor.a == 0 then Glyph.upper (hexOf topColor)
  else Glyph.upperBg (hexOf topColor) (hexOf bottomColor)

/-- Truncation toward zero of an exact rational: the model of Go's
`int(x)` conversion applied to a `float64`. -/
def ratTrunc (q : ℚ) : Int := Int.tdiv q.num (q.den : Int)

/-- `float64(img.Bounds().Dy()) / float64(img.Bounds().Dx())` modelled exactly. -/
def aspectOf (img : Img) : ℚ := ((img.bounds.dy : ℚ)) / ((img.bounds.dx : ℚ))

/-- `calculateImageSize` (core `viewer.go`, method on `model` reading
`m.Width`/`m.Height`): half the terminal columns as pixel width, target
height from the aspect, clamped to `Height*2` with the width recomputed. -/
def calculateImageSize (mWidth mHeight : Int) (img : Img) : Int × Int :=
  let maxWidth := Int.tdiv mWidth 2
  let tgtHeight := ratTrunc ((maxWidth : ℚ) * aspectOf img * 2)
  if tgtHeight > mHeight * 2 then
    (ratTrunc (((mHeight * 2 : Int) : ℚ) / aspectOf img / 2), mHeight * 2)
  else
    (maxWidth, tgtHeight)

/-- A progress message (`progressMsg` in core, `ProgressUpdate` in
`internal/gif`; identical fields). -/
structure ProgressMsg where
  partialFrame : List Glyph
  rowsComplete : Int
  totalRows : Int
deriving DecidableEq

/-- Inner column loop of `renderImageHalfBlock`: `x` from `bounds.Min.X`
while `x < bounds.Max.X`; the bottom pixel of the final odd row is
`color.Transparent`. `n` is the remaining iteration count. -/
def renderCols (img : Img) (b : Rect) (y : Int) : Nat → Int → List Glyph
  | 0, _ => []
  | n + 1, x =>
      let topColor := img.pixAt x y
      let bottomColor := if y + 1 < b.maxY then img.pixAt x (y + 1) else transparent16
      renderHalfBlockChar topColor bottomColor :: renderCols img b y n (x + 1)

/-- Outer row loop of `renderImageHalfBlock`: `y` from `bounds.Min.Y` by 2
while `y < bounds.Max.Y`; after each row a newline is appended, `currentRow`
is incremented, and (when a progress sink is attached) a snapshot is emitted
every second row and unconditionally on the final row. `n` is the remaining
iteration count; the accumulated glyphs and emitted messages are threaded. -/
def renderRows (img : Img) (b : Rect) (withProg : Bool) (totalRows : Int) :
    Nat → Int → Int → List Glyph → List ProgressMsg → List Glyph × List ProgressMsg
  | 0, _, _, acc, msgs => (acc, msgs)
  | n + 1, y, currentRow, acc, msgs =>
      let acc1 := acc ++ renderCols img b y (b.maxX - b.minX).toNat b.minX ++ [Glyph.newline]
      let row1 := currentRow + 1
      let msgs1 :=
        if withProg && (Int.tmod row1 2 == 0 || decide (y + 2 ≥ b.maxY)) then
          msgs ++ [⟨acc1, row1, totalRows⟩]
        else msgs
      renderRows img b withProg totalRows n (y + 2) row1 acc1 msgs1

/-- Number of iterations of the row loop: `y` runs over
`minY, minY + 2, ...` while `y < maxY`. -/
def rowIter (b : Rect) : Nat := (Int.tdiv (b.maxY - b.minY + 1) 2).toNat

/-- `renderImageHalfBlock` (core `viewer.go`): size, resample through the
external Lanczos3 resizer (abstracted as `resizeFn`), then walk the resampled
image two pixel-rows at a time. Returns the glyph text and the progress
messages sent to the channel (`withProg = false` models a `nil` channel). -/
def renderImageHalfBlock (resizeFn : Int → Int → Img → Img) (mWidth mHeight : Int)
    (img : Img) (withProg : Bool) : List Glyph × List ProgressMsg :=
  let wh := calculateImageSize mWidth mHeight img
  let resized := resizeFn wh.1 wh.2 img
  let b := resized.bounds
  let totalRows := Int.tdiv (b.maxY - b.minY + 1) 2
  renderRows resized b withProg totalRows (rowIter b) b.minY 0 [] []

/-- The `imgCopy` handed to the rasterizer: an `image.RGBA` copy of the
canvas, whose `At` widens the stored 8-bit pixels to 16 bits. -/
def canvasImg (cb : Rect) (c : Canvas) : Img := ⟨cb, fun x y => to16 (c x y)⟩

/-- The frame-string list built by the loop in `ProcessGIF` (core
`viewer.go`): frame `i` is the rasterization of the canvas copy after
compositing frame `i`; the progress channel is attached only for frame 0. -/
def processGIFFrames (resizeFn : Int → Int → Img → Img) (mWidth mHeight : Int)
    (g : GIFData) : List (List Glyph) :=
  (List.range g.image.length).map fun i =>
    (renderImageHalfBlock resizeFn mWidth mHeight
      (canvasImg (canvasRect g) (postDraw (canvasRect g) g i)) (i == 0)).1

/-! ### The parallel `internal/gif` implementation

`internal/gif/processor.go` and `internal/gif/renderer.go` duplicate the
core pipeline. These definitions embed that second copy; the shared
`image/draw`, `nfnt/resize` and `lipgloss` library calls are the same
abstract operations as above. -/

/-- `GetGIFDimensions` (`internal/gif/processor.go`): verbatim copy of the
core loop, four accumulators initialised to `0`. -/
def getGifDimensionsP (g : GIFData) : Int × Int :=
  let acc := g.image.foldl (fun (a : BBoxAcc) f =>
    { lowestX := if f.bounds.minX < a.lowestX then f.bounds.minX else a.lowestX
      lowestY := if f.bounds.minY < a.lowestY then f.bounds.minY else a.lowestY
      highestX := if f.bounds.maxX > a.highestX then f.bounds.maxX else a.highestX
      highestY := if f.bounds.maxY > a.highestY then f.bounds.maxY else a.highestY }) ⟨0, 0, 0, 0⟩
  (acc.highestX - acc.lowestX, acc.highestY - acc.lowestY)

/-- The canvas rectangle allocated by `ProcessAllFrames`. -/
def canvasRectP (g : GIFData) : Rect :=
  ⟨0, 0, (getGifDimensionsP g).1, (getGifDimensionsP g).2⟩

/-- The `ProcessAllFrames` loop state before frame `i` is composited; the
disposal switch is inlined in the source rather than in a helper, with the
same branches as `processFrame`. -/
def preDrawP (cb : Rect) (g : GIFData) : Nat → CompState
  | 0 => ⟨blankCanvas, blankCanvas⟩
  | i + 1 =>
      let s := preDrawP cb g i
      let cur := drawOver cb (g.frameAt i) s.current
      let prev := if g.disposalAt i == disposalPrevious then copyOnto cb cur s.previous else s.previous
      let cur2 :=
        if g.disposalAt i == disposalBackground then clearRect cb (g.frameAt i).bounds cur
        else if g.disposalAt i == disposalPrevious then copyOnto cb prev cur
        else cur
      ⟨cur2, prev⟩

/-- The canvas right after `ProcessAllFrames` composites frame `i`. -/
def postDrawP (cb : Rect) (g : GIFData) (i : Nat) : Canvas :=
  drawOver cb (g.frameAt i) (preDrawP cb g i).current

/-- `renderHalfBlockChar` (`internal/gif/renderer.go`): verbatim copy. -/
def renderHalfBlockCharP (topColor bottomColor : RGBA16) : Glyph :=
  if topColor.a == 0 && bottomColor.a == 0 then Glyph.blank
  else if topColor.a == 0 then Glyph.lower (hexOf bottomColor)
  else if bottomColor.a == 0 then Glyph.upper (hexOf topColor)
  else Glyph.upperBg (hexOf topColor) (hexOf bottomColor)

/-- `calculateImageSize` (`internal/gif/renderer.go`, method on `Processor`
reading `p.width`/`p.height`): verbatim copy. -/
def calculateImageSizeP (pWidth pHeight : Int) (img : Img) : Int × Int :=
  let maxWidth := Int.tdiv pWidth 2
  let tgtHeight := ratTrunc ((maxWidth : ℚ) * aspectOf img * 2)
  if tgtHeight > pHeight * 2 then
    (ratTrunc (((pHeight * 2 : Int) : ℚ) / aspectOf img / 2), pHeight * 2)
  else
    (maxWidth, tgtHeight)

/-- Column loop of `renderHalfBlock` (`internal/gif/renderer.go`). -/
def renderColsP (img : Img) (b : Rect) (y : Int) : Nat → Int → List Glyph
  | 0, _ => []
  | n + 1, x =>
      let topColor := img.pixAt x y
      let bottomColor := if y + 1 < b.maxY then img.pixAt x (y + 1) else transparent16
      renderHalfBlockCharP topColor bottomColor :: renderColsP img b y n (x + 1)

/-- Row loop of `renderHalfBlock` (`internal/gif/renderer.go`). -/
def renderRowsP (img : Img) (b : Rect) (withProg : Bool) (totalRows : Int) :
    Nat → Int → Int → List Glyph → List ProgressMsg → List Glyph × List ProgressMsg
  | 0, _, _, acc, msgs => (acc, msgs)
  | n + 1, y, currentRow, acc, msgs =>
      let acc1 := acc ++ renderColsP img b y (b.maxX - b.minX).toNat b.minX ++ [Glyph.newline]
      let row1 := currentRow + 1
      let msgs1 :=
        if withProg && (Int.tmod row1 2 == 0 || decide (y + 2 ≥ b.maxY)) then
          msgs ++ [⟨acc1, row1, totalRows⟩]
        else msgs
      renderRowsP img b withProg totalRows n (y + 2) row1 acc1 msgs1

/-- `renderHalfBlock` (`internal/gif/renderer.go`). -/
def renderHalfBlockP (resizeFn : Int → Int → Img → Img) (pWidth pHeight : Int)
    (img : Img) (withProg : Bool) : List Glyph × List ProgressMsg :=
  let wh := calculateImageSizeP pWidth pHeight img
  let resized := resizeFn wh.1 wh.2 img
  let b := resized.bounds
  let totalRows := Int.tdiv (b.maxY - b.minY + 1) 2
  renderRowsP resized b withProg totalRows (rowIter b) b.minY 0 [] []

/-- The frame-string list built by `ProcessAllFrames`
(`internal/gif/processor.go`); the progress channel is used only for frame 0
and only when the caller supplied one (`withChan`). -/
def processAllFrames (resizeFn : Int → Int → Img → Img) (pWidth pHeight : Int)
    (withChan : Bool) (g : GIFData) : List (List Glyph) :=
  (List.range g.image.length).map fun i =>
    (renderHalfBlockP resizeFn pWidth pHeight
      (canvasImg (canvasRectP g) (postDrawP (canvasRectP g) g i)) (i == 0 && withChan)).1

/-! ### Playback controller -/

/-- A `tea.Cmd` value returned by the handlers: restart the processing
pipeline, schedule a one-shot frame-advance timer (argument: the delay in
hundredths of a second actually used), or quit. -/
inductive Cmd
  | processGIF
  | tick (d : Int)
  | quit
deriving DecidableEq

/-- The bubbletea `model` (core `viewer.go`). Frame strings are glyph lists. -/
structure Model where
  gif : GIFData
  frames : List (List Glyph)
  currentFrame : Int
  width : Int
  height : Int
  paused : Bool
  showHelp : Bool
  ready : Bool
  loading : Bool
  loadingFrame : List Glyph
  loadingRows : Int
  totalRows : Int

/-- `nextFrame` (core `viewer.go`): schedule the next advance from the GIF's
per-frame delay, defaulting a zero delay to 10 (hundredths of a second). -/
def nextFrame (m : Model) : Option Cmd :=
  if decide (m.currentFrame < 0) || decide (m.currentFrame ≥ (m.gif.delay.length : Int)) then none
  else
    let d := m.gif.delay.getD m.currentFrame.toNat 0
    some (Cmd.tick (if d == 0 then 10 else d))

/-- The keys dispatched by `handleKeyPress` (`"n"`/`"right"` and
`"p"`/`"left"` each share a case in the source). -/
inductive Key
  | space
  | help
  | next
  | prev
  | quit

/-- `handleKeyPress` (core `viewer.go`). -/
def handleKeyPress (m : Model) (k : Key) : Model × Option Cmd :=
  match k with
  | Key.space =>
      let m1 := { m with paused := !m.paused }
      if !m1.paused && m1.ready then (m1, nextFrame m1) else (m1, none)
  | Key.help => ({ m with showHelp := !m.showHelp }, none)
  | Key.next =>
      if decide (0 < m.frames.length) then
        ({ m with paused := true,
                  currentFrame := Int.tmod (m.currentFrame + 1) (m.frames.length : Int) }, none)
      else (m, none)
  | Key.prev =>
      if decide (0 < m.frames.length) then
        ({ m with paused := true,
                  currentFrame :=
                    Int.tmod (m.currentFrame - 1 + (m.frames.length : Int)) (m.frames.length : Int) }, none)
      else (m, none)
  | Key.quit => (m, some Cmd.quit)

/-- `handleFrameAdvance` (core `viewer.go`). -/
def handleFrameAdvance (m : Model) : Model × Option Cmd :=
  if !m.paused && m.ready && decide (0 < m.frames.length) then
    let m1 := { m with currentFrame := Int.tmod (m.currentFrame + 1) (m.frames.length : Int) }
    (m1, nextFrame m1)
  else (m, none)

/-- `handleProgress` (core `viewer.go`). -/
def handleProgress (m : Model) (msg : ProgressMsg) : Model × Option Cmd :=
  if m.loading && !m.ready then
    ({ m with loadingFrame := msg.partialFrame, loadingRows := msg.rowsComplete,
              totalRows := msg.totalRows }, none)
  else (m, none)

/-- `handleProcessingComplete` (core `viewer.go`). -/
def handleProcessingComplete (m : Model) : Model × Option Cmd :=
  let m1 := { m with ready := true, loading := false, currentFrame := 0 }
  if !m1.paused then (m1, nextFrame m1) else (m1, none)

/-- `handleWindowResize` (core `viewer.go`). -/
def handleWindowResize (m : Model) (msgWidth msgHeight : Int) : Model × Option Cmd :=
  let oldWidth := m.width
  let oldHeight := m.height
  let m1 := { m with width := msgWidth, height := msgHeight }
  if oldWidth == 0 || oldHeight == 0 then (m1, none)
  else if oldWidth == m1.width && oldHeight == m1.height then (m1, none)
  else if m1.loading then (m1, none)
  else
    ({ m1 with ready := false, loading := true, loadingFrame := [],
               loadingRows := 0, totalRows := 0, frames := [] }, some Cmd.processGIF)

/-! ### Loading -/

/-- Character-list matching used to model `strings.HasPrefix`. -/
def matchesAt : List Char → List Char → Bool
  | _, [] => true
  | [], _ :: _ => false
  | c :: cs, d :: ds => c == d && matchesAt cs ds

/-- `isURL` (identical in both packages). -/
def isURL (s : String) : Bool :=
  matchesAt s.data ("http://".data) || matchesAt s.data ("https://".data)

/-- `loadGIF` (core `viewer.go`), with the `http.Get` call, `os.Open` and
`gif.DecodeAll` abstracted as parameters. The Go function returns the pair
`(*gif.GIF, error)`, modelled as `Option GIFData × Option String`. A
successful `http.Get` yields a status code and a body. -/
def loadGIF (get : String → Except String (Nat × List Nat))
    (openFile : String → Except String (List Nat))
    (decodeAll : List Nat → Except String GIFData) (source : String) :
    Option GIFData × Option String :=
  if isURL source then
    match get source with
    | Except.error e => (none, some ("failed to download: " ++ e))
    | Except.ok sb =>
        if sb.1 != 200 then (none, some ("HTTP error: " ++ toString sb.1))
        else
          match decodeAll sb.2 with
          | Except.error e => (none, some ("failed to decode GIF: " ++ e))
          | Except.ok g => (some g, none)
  else
    match openFile source with
    | Except.error e => (none, some ("failed to open file: " ++ e))
    | Except.ok bod =>
        match decodeAll bod with
        | Except.error e => (none, some ("failed to decode GIF: " ++ e))
        | Except.ok g => (some g, none)

/-- `LoadFromSource` (`internal/gif/processor.go`). In the non-200 branch the
source executes `return nil, err` where `err` is the inner variable shadowed
by `resp, err := http.Get(source)`, which is `nil` on that path — so the
function returns a nil GIF together with a nil error, modelled as
`(none, none)`. -/
def loadFromSource (get : String → Except String (Nat × List Nat))
    (openFile : String → Except String (List Nat))
    (decodeAll : List Nat → Except String GIFData) (source : String) :
    Option GIFData × Option String :=
  if isURL source then
    match get source with
    | Except.error e => (none, some e)
    | Except.ok sb =>
        if sb.1 != 200 then (none, none)
        else
          match decodeAll sb.2 with
          | Except.error e => (none, some e)
          | Except.ok g => (some g, none)
  else
    match openFile source with
    | Except.error e => (none, some e)
    | Except.ok bod =>
        match decodeAll bod with
        | Except.error e => (none, some e)
        | Except.ok g => (some g, none)

/-! ### Concrete data used by several witnesses and counterexamples -/

/-- An opaque red 8-bit pixel. -/
def redPix : RGBA := ⟨255, 0, 0, 255⟩

/-- A 1×1 sub-frame at the origin whose only pixel is opaque red. -/
def fRed : SubFrame := ⟨⟨0, 0, 1, 1⟩, fun _ _ => some redPix⟩

/-- A 1×1 sub-frame at the origin whose only pixel is transparent. -/
def fClear : SubFrame := ⟨⟨0, 0, 1, 1⟩, fun _ _ => none⟩

/-- A one-frame GIF. -/
def gOne : GIFData := ⟨[fClear], [10], [disposalNone]⟩

/-! ### C7: the four-case half-block glyph rule -/

/-- C7: for every pair of pixels, `renderHalfBlockChar` follows the four-case
rule — both transparent: blank cell, no colour; top transparent and bottom
opaque: lower-half glyph with the bottom colour as foreground; bottom
transparent and top opaque: upper-half glyph with the top colour as
foreground; both opaque: upper-half glyph with the top colour as foreground
and the bottom colour as background. -/
theorem C7_glyphRule (topColor bottomColor : RGBA16) :
    (topColor.a = 0 → bottomColor.a = 0 →
      renderHalfBlockChar topColor bottomColor = Glyph.blank) ∧
    (topColor.a = 0 → bottomColor.a ≠ 0 →
      renderHalfBlockChar topColor bottomColor = Glyph.lower (hexOf bottomColor)) ∧
    (topColor.a ≠ 0 → bottomColor.a = 0 →
      renderHalfBlockChar topColor bottomColor = Glyph.upper (hexOf topColor)) ∧
    (topColor.a ≠ 0 → bottomColor.a ≠ 0 →
      renderHalfBlockChar topColor bottomColor = Glyph.upperBg (hexOf topColor) (hexOf bottomColor)) := by
  refine ⟨?_, ?_, ?_, ?_⟩ <;> intro h1 h2 <;> simp [renderHalfBlockChar, h1, h2]

/-- A fully opaque 16-bit red pixel. -/
def red16 : RGBA16 := ⟨65535, 0, 0, 65535⟩

/-- Witness for C7 at a concrete pair (transparent top, red bottom). -/
theorem C7_witness :
    transparent16.a = 0 ∧ red16.a ≠ 0 ∧
    renderHalfBlockChar transparent16 red16 = Glyph.lower (hexOf red16) :=
  ⟨rfl, by decide, (C7_glyphRule transparent16 red16).2.1 rfl (by decide)⟩

/-! ### C9: stale timer firing while paused or not ready -/

/-- C9: whenever a `frameMsg` timer message is handled while the controller is
paused or not ready, `handleFrameAdvance` is a no-op — the model is returned
unchanged and no further timer command is scheduled. -/
theorem C9_staleTimerNoOp (m : Model) (h : m.paused = true ∨ m.ready = false) :
    handleFrameAdvance m = (m, none) := by
  unfold handleFrameAdvance
  rcases h with h | h <;> simp [h]

/-- A paused, ready model used to witness C9. -/
def mC9 : Model :=
  { gif := gOne, frames := [[]], currentFrame := 0, width := 80, height := 40,
    paused := true, showHelp := false, ready := true, loading := false,
    loadingFrame := [], loadingRows := 0, totalRows := 0 }

/-- Witness for C9 at a concrete paused model. -/
theorem C9_witness : mC9.paused = true ∧ handleFrameAdvance mC9 = (mC9, none) :=
  ⟨rfl, C9_staleTimerNoOp mC9 (Or.inl rfl)⟩

/-! ### C1: the RestorePrevious snapshot is captured too late -/

/-- A two-frame GIF whose first frame paints one red pixel and carries
disposal `DisposalPrevious`. -/
def gC1 : GIFData := ⟨[fRed, fClear], [10, 10], [disposalPrevious, disposalNone]⟩

/-- C1 fails on the code: for `gC1`, frame 0 has disposal `RestorePrevious`,
the canvas immediately before frame 0 was drawn is transparent at (0,0), yet
the base canvas for frame 1 holds the red pixel painted by frame 0 — because
the loop copies `current` into `previous` only at the top of iteration 1,
after frame 0 was already composited, and then immediately restores from that
copy, a no-op. The claimed equality of the two canvas states is false. -/
theorem C1_restorePreviousBug :
    gC1.disposalAt 0 = disposalPrevious ∧
    (preDraw (canvasRect gC1) gC1 0).current 0 0 = transparentRGBA ∧
    (preDraw (canvasRect gC1) gC1 1).current 0 0 = redPix ∧
    decide ((preDraw (canvasRect gC1) gC1 1).current 0 0 =
      (preDraw (canvasRect gC1) gC1 0).current 0 0) = false := by
  refine ⟨by decide, by decide, by decide, by decide⟩

/-! ### C2: the resize deferred during loading is never re-processed -/

/-- A model in the middle of the initial processing run (`Loading`). -/
def mLoadC2 : Model :=
  { gif := gOne, frames := [], currentFrame := 0, width := 80, height := 40,
    paused := false, showHelp := false, ready := false, loading := true,
    loadingFrame := [], loadingRows := 0, totalRows := 0 }

/-- The only commands `nextFrame` can produce: nothing or a timer. -/
lemma nextFrame_shape (m : Model) : nextFrame m = none ∨ ∃ d, nextFrame m = some (Cmd.tick d) := by
  unfold nextFrame
  split
  · exact Or.inl rfl
  · exact Or.inr ⟨_, rfl⟩

/-- C2 fails on the code: a resize arriving while `Loading` records the new
dimensions and starts no second pipeline (command `none`), but when the
in-flight processing completes, `handleProcessingComplete` never starts the
promised re-process cycle — for every model it leaves the frame cache as-is
and returns either no command or a frame-advance timer, never
`Cmd.processGIF`. -/
theorem C2_deferredResizeDropped :
    (handleWindowResize mLoadC2 100 50).2 = none ∧
    (handleWindowResize mLoadC2 100 50).1.width = 100 ∧
    (handleWindowResize mLoadC2 100 50).1.height = 50 ∧
    (handleWindowResize mLoadC2 100 50).1.loading = true ∧
    (∀ m : Model, (handleProcessingComplete m).1.frames = m.frames ∧
      ((handleProcessingComplete m).2 = none ∨
        ∃ d, (handleProcessingComplete m).2 = some (Cmd.tick d))) := by
  refine ⟨by decide, by decide, by decide, by decide, ?_⟩
  intro m
  constructor
  · by_cases hp : m.paused <;> simp [handleProcessingComplete, hp]
  · have h := nextFrame_shape { m with ready := true, loading := false, currentFrame := 0 }
    by_cases hp : m.paused
    · simp [handleProcessingComplete, hp]
    · simpa [handleProcessingComplete, hp] using h

/-! ### C5: the shadowed error in LoadFromSource -/

/-- C5 fails on the code: with an HTTP GET that succeeds with status 404,
`LoadFromSource` returns `(nil, nil)` — no GIF and a nil error — because the
`err` it returns is the variable shadowed by `resp, err := http.Get(...)`.
The core `loadGIF` on the same input does return a non-nil error and no GIF,
and (last conjunct) a decode failure in `LoadFromSource` does surface its
error. -/
theorem C5_shadowedError :
    loadFromSource (fun _ => Except.ok (404, [])) (fun _ => Except.error ("no file"))
      (fun _ => Except.error ("bad gif")) ("http://a") = (none, none) ∧
    (loadGIF (fun _ => Except.ok (404, [])) (fun _ => Except.error ("no file"))
      (fun _ => Except.error ("bad gif")) ("http://a")).1 = none ∧
    (loadGIF (fun _ => Except.ok (404, [])) (fun _ => Except.error ("no file"))
      (fun _ => Except.error ("bad gif")) ("http://a")).2.isSome = true ∧
    (∀ bod : List Nat, ∀ e : String, ∀ openF : String → Except String (List Nat),
      loadFromSource (fun _ => Except.ok (200, bod)) openF
        (fun _ => Except.error e) ("http://a") = (none, some e)) := by
  refine ⟨rfl, rfl, rfl, fun bod e openF => rfl⟩

/-! ### C4: the canvas bounding box clamps its accumulators at zero -/

/-- A single sub-frame strictly offset from the origin. -/
def fOff : SubFrame := ⟨⟨10, 10, 20, 20⟩, fun _ _ => none⟩

/-- A one-frame GIF whose frame sits at offset (10,10)–(20,20). -/
def gC4 : GIFData := ⟨[fOff], [10], [disposalNone]⟩

/-- C4 fails on the code as stated: for the single frame (10,10)–(20,20) the
claimed bounding box `(max of Max − min of Min)` is `(10, 10)`, but the
source initialises all four accumulators at `0`, so it returns `(20, 20)`. -/
theorem C4_counterexample :
    getGifDimensions gC4 = (20, 20) ∧
    decide (getGifDimensions gC4 = (20 - 10, 20 - 10)) = false := by
  exact ⟨by decide, by decide⟩

/-- Go's `if b < a then b else a` is `min a b`. -/
lemma ite_lt_min (a b : Int) : (if b < a then b else a) = min a b := by
  rw [min_def]
  split <;> split <;> omega

/-- Go's `if b > a then b else a` is `max a b`. -/
lemma ite_gt_max (a b : Int) : (if b > a then b else a) = max a b := by
  rw [max_def]
  split <;> split <;> omega

/-- The `getGifDimensions` fold computes componentwise min/max folds. -/
lemma dimFold (l : List SubFrame) (a : BBoxAcc) :
    l.foldl dimStep a =
      ⟨(l.map fun f => f.bounds.minX).foldl min a.lowestX,
       (l.map fun f => f.bounds.minY).foldl min a.lowestY,
       (l.map fun f => f.bounds.maxX).foldl max a.highestX,
       (l.map fun f => f.bounds.maxY).foldl max a.highestY⟩ := by
  induction l generalizing a with
  | nil => rfl
  | cons f t ih =>
      simp only [List.foldl_cons, List.map_cons, ih]
      have hstep : dimStep a f =
          ⟨min a.lowestX f.bounds.minX, min a.lowestY f.bounds.minY,
           max a.highestX f.bounds.maxX, max a.highestY f.bounds.maxY⟩ := by
        unfold dimStep
        rw [ite_lt_min, ite_lt_min, ite_gt_max, ite_gt_max]
      rw [hstep]

/-- C4 amended: for every non-empty frame list, the returned width and height
are `(max of all Max coordinates, clamped below at 0) − (min of all Min
coordinates, clamped above at 0)` on each axis — the bounding box of all
frame rectangles together with the origin, because the accumulators start
at zero. -/
theorem C4_amendedBoundingBox (g : GIFData) (h : 0 < g.image.length) :
    getGifDimensions g =
      ((g.image.map fun f => f.bounds.maxX).foldl max 0 -
        (g.image.map fun f => f.bounds.minX).foldl min 0,
       (g.image.map fun f => f.bounds.maxY).foldl max 0 -
        (g.image.map fun f => f.bounds.minY).foldl min 0) := by
  unfold getGifDimensions
  rw [dimFold]

/-- Witness for the amended C4 at the offset one-frame GIF. -/
theorem C4_witness :
    0 < gC4.image.length ∧
    getGifDimensions gC4 =
      ((gC4.image.map fun f => f.bounds.maxX).foldl max 0 -
        (gC4.image.map fun f => f.bounds.minX).foldl min 0,
       (gC4.image.map fun f => f.bounds.maxY).foldl max 0 -
        (gC4.image.map fun f => f.bounds.minY).foldl min 0) :=
  ⟨by decide, C4_amendedBoundingBox gC4 (by decide)⟩

/-! ### C3: the available pixel width is half the terminal column count -/

/-- A 200×100 source image for the sizing counterexample. -/
def img2001 : Img := ⟨⟨0, 0, 200, 100⟩, fun _ _ => transparent16⟩

/-- C3 fails on the code as stated: with 40 terminal columns, 50 rows and a
200×100 source, the claim's formulas give width 40 (the full column count)
and height `trunc(40 × (100/200) × 2) = 40`, but the source halves the
column count first and returns `(20, 20)`. -/
theorem C3_counterexample :
    calculateImageSize 40 50 img2001 = (20, 20) ∧
    ratTrunc ((40 : ℚ) * aspectOf img2001 * 2) = 40 ∧
    decide (calculateImageSize 40 50 img2001 = (40, 40)) = false := by
  have ha : aspectOf img2001 = 1 / 2 := by
    norm_num [aspectOf, img2001, Rect.dy, Rect.dx]
  have htd : Int.tdiv 40 2 = 20 := by decide
  have h1 : calculateImageSize 40 50 img2001 = (20, 20) := by
    unfold calculateImageSize
    rw [ha, htd]
    norm_num [ratTrunc]
  refine ⟨h1, ?_, ?_⟩
  · rw [ha]
    norm_num [ratTrunc]
  · rw [h1]
    decide

/-- C3 amended: `calculateImageSize` takes the available pixel width to be
half the terminal column count (`Width / 2`, integer division), computes the
target height as that half-width × (sourceHeight / sourceWidth) × 2
(truncated to int), and if that exceeds `Height × 2` it clamps the height to
`Height × 2` and recomputes the width as height / aspectRatio / 2
(truncated). -/
theorem C3_amendedSizing (mWidth mHeight : Int) (img : Img) :
    (ratTrunc ((Int.tdiv mWidth 2 : ℚ) * aspectOf img * 2) ≤ mHeight * 2 →
      calculateImageSize mWidth mHeight img =
        (Int.tdiv mWidth 2, ratTrunc ((Int.tdiv mWidth 2 : ℚ) * aspectOf img * 2))) ∧
    (mHeight * 2 < ratTrunc ((Int.tdiv mWidth 2 : ℚ) * aspectOf img * 2) →
      calculateImageSize mWidth mHeight img =
        (ratTrunc (((mHeight * 2 : Int) : ℚ) / aspectOf img / 2), mHeight * 2)) := by
  constructor
  · intro h
    unfold calculateImageSize
    dsimp only
    split
    · next hgt => exact absurd hgt (by omega)
    · rfl
  · intro h
    unfold calculateImageSize
    dsimp only
    split
    · rfl
    · next hng => exact absurd h (by omega)

/-- Witness for the amended C3 at the unclamped concrete input. -/
theorem C3_witness :
    ratTrunc ((Int.tdiv 40 2 : ℚ) * aspectOf img2001 * 2) ≤ 50 * 2 ∧
    calculateImageSize 40 50 img2001 =
      (Int.tdiv 40 2, ratTrunc ((Int.tdiv 40 2 : ℚ) * aspectOf img2001 * 2)) := by
  have hyp : ratTrunc ((Int.tdiv 40 2 : ℚ) * aspectOf img2001 * 2) ≤ 50 * 2 := by
    have ha : aspectOf img2001 = 1 / 2 := by
      norm_num [aspectOf, img2001, Rect.dy, Rect.dx]
    have htd : Int.tdiv 40 2 = 20 := by decide
    rw [ha, htd]
    norm_num [ratTrunc]
  exact ⟨hyp, (C3_amendedSizing 40 50 img2001).1 hyp⟩

/-! ### C6: RestoreBackground clears exactly the previous frame's rectangle -/

/-- Pixels outside the canvas rectangle are never touched by the compositing
loop: both buffers stay transparent there at every step. -/
lemma preDraw_outside (cb : Rect) (g : GIFData) (x y : Int) (hx : cb.contains x y = false) :
    ∀ i, (preDraw cb g i).current x y = transparentRGBA ∧
         (preDraw cb g i).previous x y = transparentRGBA := by
  intro i
  induction i with
  | zero => exact ⟨rfl, rfl⟩
  | succ i ih =>
      obtain ⟨hc, hp⟩ := ih
      have hcur : drawOver cb (g.frameAt i) (preDraw cb g i).current x y = transparentRGBA := by
        unfold drawOver
        rw [hx]
        simpa using hc
      have hprev : (preDraw cb g (i + 1)).previous x y = transparentRGBA := by
        show (if g.disposalAt i == disposalPrevious then
                copyOnto cb (drawOver cb (g.frameAt i) (preDraw cb g i).current)
                  (preDraw cb g i).previous
              else (preDraw cb g i).previous) x y = transparentRGBA
        split
        · unfold copyOnto
          rw [hx]
          simpa using hp
        · exact hp
      refine ⟨?_, hprev⟩
      show processFrame cb _ (g.frameAt i).bounds (g.disposalAt i) x y = transparentRGBA
      unfold processFrame
      split
      · unfold clearRect
        rw [hx]
        simpa using hcur
      · split
        · unfold copyOnto
          rw [hx]
          simp only [if_false, Bool.false_eq_true]
          exact hcur
        · exact hcur

/-- C6: for every frame `i` with disposal `RestoreBackground`, the canvas used
as the base for frame `i+1` is fully transparent exactly within frame `i`'s
bounds and is unchanged from the post-composite state of frame `i` at every
pixel outside those bounds. -/
theorem C6_restoreBackground (g : GIFData) (i : Nat)
    (hd : g.disposalAt i = disposalBackground) (hi : i + 1 < g.image.length) (x y : Int) :
    (preDraw (canvasRect g) g (i + 1)).current x y =
      (if (g.frameAt i).bounds.contains x y then transparentRGBA
       else postDraw (canvasRect g) g i x y) := by
  have hdp : (g.disposalAt i == disposalPrevious) = false := by
    simp [hd, disposalBackground, disposalPrevious]
  have hdb : (g.disposalAt i == disposalBackground) = true := by
    simp [hd]
  show processFrame (canvasRect g) _ (g.frameAt i).bounds (g.disposalAt i) x y = _
  unfold processFrame
  rw [hdb]
  simp only [if_true]
  unfold clearRect
  by_cases hf : (g.frameAt i).bounds.contains x y
  · rw [hf]
    simp only [Bool.true_and, if_true]
    by_cases hcb : (canvasRect g).contains x y
    · simp [hcb]
    · have hx : (canvasRect g).contains x y = false := by
        simpa using hcb
      rw [hx]
      simp only [Bool.and_false, Bool.false_eq_true, if_false]
      have houter := preDraw_outside (canvasRect g) g x y hx i
      show drawOver (canvasRect g) (g.frameAt i) (preDraw (canvasRect g) g i).current x y = _
      unfold drawOver
      rw [hx]
      simpa using houter.1
  · have hf0 : (g.frameAt i).bounds.contains x y = false := by simpa using hf
    rw [hf0]
    simp only [Bool.false_and, Bool.false_eq_true, if_false]
    rfl

/-- A two-frame GIF whose first frame paints one red pixel and carries
disposal `RestoreBackground`. -/
def gC6 : GIFData := ⟨[fRed, fClear], [10, 10], [disposalBackground, disposalNone]⟩

/-- Witness for C6 at the concrete two-frame GIF and pixel (0,0). -/
theorem C6_witness :
    gC6.disposalAt 0 = disposalBackground ∧ 0 + 1 < gC6.image.length ∧
    (preDraw (canvasRect gC6) gC6 1).current 0 0 =
      (if (gC6.frameAt 0).bounds.contains 0 0 then transparentRGBA
       else postDraw (canvasRect gC6) gC6 0 0 0) :=
  ⟨by decide, by decide, C6_restoreBackground gC6 0 (by decide) (by decide) 0 0⟩

/-! ### C8: the controller invariant is preserved by every handler -/

/-- The spec's controller invariant: once ready the frame cache matches the
sub-frame count, a non-empty cache keeps `currentFrame` a valid index, and
while loading the completed rows never exceed the total rows. -/
def Invariant (m : Model) : Prop :=
  (m.ready = true → m.frames.length = m.gif.image.length) ∧
  (0 < m.frames.length → 0 ≤ m.currentFrame ∧ m.currentFrame < (m.frames.length : Int)) ∧
  (m.loading = true → m.loadingRows ≤ m.totalRows)

instance decInvariant (m : Model) : Decidable (Invariant m) := by
  unfold Invariant
  infer_instance

/-- Go's `%` on non-negative operands yields a canonical representative. -/
lemma tmod_bounds (a b : Int) (ha : 0 ≤ a) (hb : 0 < b) :
    0 ≤ Int.tmod a b ∧ Int.tmod a b < b := by
  rw [Int.tmod_eq_emod ha (le_of_lt hb)]
  exact ⟨Int.emod_nonneg a (ne_of_gt hb), Int.emod_lt_of_pos a hb⟩

lemma inv_keyPress (m : Model) (h : Invariant m) (k : Key) :
    Invariant (handleKeyPress m k).1 := by
  obtain ⟨h1, h2, h3⟩ := h
  cases k with
  | space =>
      unfold handleKeyPress
      dsimp only
      split
      · exact ⟨h1, h2, h3⟩
      · exact ⟨h1, h2, h3⟩
  | help => exact ⟨h1, h2, h3⟩
  | next =>
      unfold handleKeyPress
      dsimp only
      split
      · next hlen =>
          have hl : 0 < m.frames.length := of_decide_eq_true hlen
          obtain ⟨hc0, hcl⟩ := h2 hl
          have hb := tmod_bounds (m.currentFrame + 1) (m.frames.length : Int)
            (by omega) (by exact_mod_cast hl)
          exact ⟨h1, fun _ => hb, h3⟩
      · exact ⟨h1, h2, h3⟩
  | prev =>
      unfold handleKeyPress
      dsimp only
      split
      · next hlen =>
          have hl : 0 < m.frames.length := of_decide_eq_true hlen
          obtain ⟨hc0, hcl⟩ := h2 hl
          have hlI : (0 : Int) < (m.frames.length : Int) := by exact_mod_cast hl
          have hb := tmod_bounds (m.currentFrame - 1 + (m.frames.length : Int))
            (m.frames.length : Int) (by omega) hlI
          exact ⟨h1, fun _ => hb, h3⟩
      · exact ⟨h1, h2, h3⟩
  | quit => exact ⟨h1, h2, h3⟩

lemma inv_frameAdvance (m : Model) (h : Invariant m) :
    Invariant (handleFrameAdvance m).1 := by
  obtain ⟨h1, h2, h3⟩ := h
  unfold handleFrameAdvance
  dsimp only
  split
  · next hcond =>
      have hl : 0 < m.frames.length := by
        simp only [Bool.and_eq_true, decide_eq_true_eq] at hcond
        exact hcond.2
      obtain ⟨hc0, hcl⟩ := h2 hl
      have hb := tmod_bounds (m.currentFrame + 1) (m.frames.length : Int)
        (by omega) (by exact_mod_cast hl)
      exact ⟨h1, fun _ => hb, h3⟩
  · exact ⟨h1, h2, h3⟩

lemma inv_progress (m : Model) (h : Invariant m) (msg : ProgressMsg)
    (hm : msg.rowsComplete ≤ msg.totalRows) : Invariant (handleProgress m msg).1 := by
  obtain ⟨h1, h2, h3⟩ := h
  unfold handleProgress
  split
  · exact ⟨h1, h2, fun _ => hm⟩
  · exact ⟨h1, h2, h3⟩

lemma inv_complete (m : Model) (hfr : m.frames.length = m.gif.image.length) :
    Invariant (handleProcessingComplete m).1 := by
  unfold handleProcessingComplete
  dsimp only
  split <;>
  · refine ⟨fun _ => hfr, fun hl => ⟨le_refl 0, ?_⟩, fun hld => nomatch hld⟩
    dsimp only at hl ⊢
    exact_mod_cast hl

lemma inv_resize (m : Model) (h : Invariant m) (w hgt : Int) :
    Invariant (handleWindowResize m w hgt).1 := by
  obtain ⟨h1, h2, h3⟩ := h
  unfold handleWindowResize
  dsimp only
  split
  · exact ⟨h1, h2, h3⟩
  split
  · exact ⟨h1, h2, h3⟩
  split
  · exact ⟨h1, h2, h3⟩
  refine ⟨?_, ?_, ?_⟩
  · intro hr
    dsimp only at hr
    exact nomatch hr
  · intro hl
    dsimp only at hl
    exact absurd hl (lt_irrefl 0)
  · intro _
    dsimp only
    exact le_refl 0

/-- Every progress message emitted by the row loop reports at most the total
row count: the iteration count equals the reported total. -/
lemma renderRows_msgs (img : Img) (b : Rect) (wp : Bool) (T : Int) :
    ∀ (n : Nat) (y row : Int) (acc : List Glyph) (msgs : List ProgressMsg),
      (∀ msg ∈ msgs, msg.rowsComplete ≤ msg.totalRows) → row + (n : Int) ≤ T →
      ∀ msg ∈ (renderRows img b wp T n y row acc msgs).2,
        msg.rowsComplete ≤ msg.totalRows := by
  intro n
  induction n with
  | zero =>
      intro y row acc msgs hm _ msg hmem
      exact hm msg hmem
  | succ n ih =>
      intro y row acc msgs hm hle msg hmem
      simp only [renderRows] at hmem
      refine ih (y + 2) (row + 1) _ _ ?_ (by push_cast at hle ⊢; omega) msg hmem
      intro m2 hm2
      split at hm2
      · rcases List.mem_append.mp hm2 with hA | hB
        · exact hm m2 hA
        · have hEq := List.mem_singleton.mp hB
          rw [hEq]
          show row + 1 ≤ T
          push_cast at hle
          omega
      · exact hm m2 hm2

/-- Instantiation of `renderRows_msgs` at the loop entry of the rasterizer. -/
lemma renderRows_top_msgs (img : Img) (b : Rect) :
    ∀ msg ∈ (renderRows img b true (Int.tdiv (b.maxY - b.minY + 1) 2)
        (rowIter b) b.minY 0 [] []).2, msg.rowsComplete ≤ msg.totalRows := by
  intro msg hmem
  rcases le_or_lt 0 (Int.tdiv (b.maxY - b.minY + 1) 2) with hT | hT
  · refine renderRows_msgs img b true _ (rowIter b) b.minY 0 [] []
      (by simp) ?_ msg hmem
    unfold rowIter
    rw [Int.toNat_of_nonneg hT]
    omega
  · have h0 : rowIter b = 0 := by
      unfold rowIter
      omega
    rw [h0] at hmem
    simp only [renderRows, List.not_mem_nil] at hmem

/-- Messages emitted by the full rasterizer are well-formed. -/
lemma renderImage_msgs (rf : Int → Int → Img → Img) (tw th : Int) (img : Img) :
    ∀ msg ∈ (renderImageHalfBlock rf tw th img true).2,
      msg.rowsComplete ≤ msg.totalRows := by
  intro msg hmem
  unfold renderImageHalfBlock at hmem
  exact renderRows_top_msgs _ _ msg hmem

/-- The worker produces exactly one frame string per GIF frame. -/
lemma processGIFFrames_length (rf : Int → Int → Img → Img) (tw th : Int) (g : GIFData) :
    (processGIFFrames rf tw th g).length = g.image.length := by
  unfold processGIFFrames
  simp

/-- C8: every transition handler preserves the controller invariant — assuming
only that progress messages are well-formed (which the rasterizer guarantees,
sixth conjunct) and that the completion event finds the worker's full frame
cache in place (whose length matches the sub-frame count, last conjunct). -/
theorem C8_invariantPreserved (m : Model) (hInv : Invariant m) :
    (∀ k : Key, Invariant (handleKeyPress m k).1) ∧
    Invariant (handleFrameAdvance m).1 ∧
    (∀ msg : ProgressMsg, msg.rowsComplete ≤ msg.totalRows →
      Invariant (handleProgress m msg).1) ∧
    (m.frames.length = m.gif.image.length → Invariant (handleProcessingComplete m).1) ∧
    (∀ w hgt : Int, Invariant (handleWindowResize m w hgt).1) ∧
    (∀ (rf : Int → Int → Img → Img) (tw th : Int) (img : Img),
      ∀ msg ∈ (renderImageHalfBlock rf tw th img true).2,
        msg.rowsComplete ≤ msg.totalRows) ∧
    (∀ (rf : Int → Int → Img → Img) (tw th : Int) (g : GIFData),
      (processGIFFrames rf tw th g).length = g.image.length) :=
  ⟨fun k => inv_keyPress m hInv k,
   inv_frameAdvance m hInv,
   fun msg hm => inv_progress m hInv msg hm,
   fun hfr => inv_complete m hfr,
   fun w hgt => inv_resize m hInv w hgt,
   fun rf tw th img => renderImage_msgs rf tw th img,
   fun rf tw th g => processGIFFrames_length rf tw th g⟩

/-- A ready model with a one-entry frame cache used to witness C8. -/
def mC8 : Model :=
  { gif := gOne, frames := [[]], currentFrame := 0, width := 80, height := 40,
    paused := false, showHelp := false, ready := true, loading := false,
    loadingFrame := [], loadingRows := 0, totalRows := 0 }

/-- Witness for C8 at a concrete ready model. -/
theorem C8_witness : Invariant mC8 ∧ Invariant (handleFrameAdvance mC8).1 :=
  ⟨by decide, (C8_invariantPreserved mC8 (by decide)).2.1⟩

/-! ### C10: the two parallel pipelines are equivalent -/

lemma charP_eq (t b : RGBA16) : renderHalfBlockCharP t b = renderHalfBlockChar t b := rfl

lemma calcP_eq (w h : Int) (img : Img) :
    calculateImageSizeP w h img = calculateImageSize w h img := rfl

lemma dimsP_eq (g : GIFData) : getGifDimensionsP g = getGifDimensions g := rfl

lemma canvasRectP_eq (g : GIFData) : canvasRectP g = canvasRect g := rfl

lemma colsP_eq (img : Img) (b : Rect) (y : Int) :
    ∀ (n : Nat) (x : Int), renderColsP img b y n x = renderCols img b y n x := by
  intro n
  induction n with
  | zero => intro x; rfl
  | succ n ih =>
      intro x
      simp only [renderColsP, renderCols, charP_eq, ih]

lemma rowsP_eq (img : Img) (b : Rect) (wp : Bool) (T : Int) :
    ∀ (n : Nat) (y row : Int) (acc : List Glyph) (msgs : List ProgressMsg),
      renderRowsP img b wp T n y row acc msgs = renderRows img b wp T n y row acc msgs := by
  intro n
  induction n with
  | zero => intro y row acc msgs; rfl
  | succ n ih =>
      intro y row acc msgs
      simp only [renderRowsP, renderRows, colsP_eq, ih]

lemma preDrawP_eq (cb : Rect) (g : GIFData) : ∀ i, preDrawP cb g i = preDraw cb g i := by
  intro i
  induction i with
  | zero => rfl
  | succ i ih => simp only [preDrawP, preDraw, processFrame, ih]

lemma postDrawP_eq (cb : Rect) (g : GIFData) (i : Nat) :
    postDrawP cb g i = postDraw cb g i := by
  unfold postDrawP postDraw
  rw [preDrawP_eq]

lemma renderHalfBlockP_eq (rf : Int → Int → Img → Img) (w h : Int) (img : Img) (wp : Bool) :
    renderHalfBlockP rf w h img wp = renderImageHalfBlock rf w h img wp := by
  unfold renderHalfBlockP renderImageHalfBlock
  simp only [calcP_eq, rowsP_eq]

/-- The glyph output of the row loop does not depend on whether a progress
sink is attached. -/
lemma renderRows_fst (img : Img) (b : Rect) (T : Int) :
    ∀ (n : Nat) (y row : Int) (acc : List Glyph) (msgs msgs2 : List ProgressMsg) (wp wp2 : Bool),
      (renderRows img b wp T n y row acc msgs).1 =
        (renderRows img b wp2 T n y row acc msgs2).1 := by
  intro n
  induction n with
  | zero => intro y row acc msgs msgs2 wp wp2; rfl
  | succ n ih =>
      intro y row acc msgs msgs2 wp wp2
      simp only [renderRows]
      exact ih _ _ _ _ _ _ _

lemma renderImage_fst (rf : Int → Int → Img → Img) (w h : Int) (img : Img) (wp wp2 : Bool) :
    (renderImageHalfBlock rf w h img wp).1 = (renderImageHalfBlock rf w h img wp2).1 := by
  unfold renderImageHalfBlock
  dsimp only
  exact renderRows_fst _ _ _ _ _ _ _ _ _ _ _

/-- C10: the two parallel implementations are equivalent. For every image and
identical terminal cell dimensions the `internal/gif` rasterizer
(`renderHalfBlock`) and the core rasterizer (`renderImageHalfBlock`) return
identical glyph text and progress messages — both call the same lipgloss
styling, so the emitted bytes coincide — and for every decoded GIF,
`ProcessAllFrames` and the frame loop inside `ProcessGIF` produce identical
frame-string lists. -/
theorem C10_parallelEquivalence (rf : Int → Int → Img → Img) (tw th : Int) :
    (∀ (img : Img) (wp : Bool),
      renderHalfBlockP rf tw th img wp = renderImageHalfBlock rf tw th img wp) ∧
    (∀ (g : GIFData) (wc : Bool),
      processAllFrames rf tw th wc g = processGIFFrames rf tw th g) := by
  constructor
  · intro img wp
    exact renderHalfBlockP_eq rf tw th img wp
  · intro g wc
    unfold processAllFrames processGIFFrames
    apply List.map_congr_left
    intro i _
    rw [canvasRectP_eq, postDrawP_eq, renderHalfBlockP_eq]
    exact renderImage_fst rf tw th _ (i == 0 && wc) (i == 0)

end Jif
